import Mathlib

/-!
Shallow embedding of `src/index.js` (the `medical_exam_verifier` MCP tool).

The active implementation of `MedicalExamVerifierTool.execute` is a mock:
it checks presence of `file`, `file.data` and `examType` (JS truthiness:
`undefined`, `null` and `""` are falsy), returns a fixed error-shaped result
object on missing input, and otherwise draws `Math.random()` and returns a
mock `VerificationResult`.  No backend is ever called by the active code; the
"real implementation" (an OpenAI fetch plus `JSON.parse` of the reply) exists
only inside a block comment and is embedded separately below.

JS numbers are modelled as rationals (`ℚ`); the `Math.random()` draw is an
explicit parameter `randomProbability`, about which JS guarantees
`0 ≤ randomProbability < 1`.
-/

namespace MedicalVerifier

/-- The `file` input object of the tool: may carry base64 `data` and a
`mediaType`.  A JS field that is `undefined`/`null` is `none`. -/
structure FileInput where
  data : Option String
  mediaType : Option String
deriving DecidableEq

/-- The `inputs` argument of `execute`: `{ file, examType }`, each possibly
absent. -/
structure ExecuteInputs where
  file : Option FileInput
  examType : Option String
deriving DecidableEq

/-- JS truthiness of an optional string: `undefined`/`null` and the empty
string are falsy. -/
def strTruthy : Option String → Bool
  | none => false
  | some s => !(s == "")

/-- The guard `!file || !file.data || !examType` at the top of `execute`
(src/index.js line 54). -/
def missingInput (inputs : ExecuteInputs) : Bool :=
  match inputs.file with
  | none => true
  | some f => !(strTruthy f.data) || !(strTruthy inputs.examType)

/-- The object shape returned by `execute` on every path: exactly the fields
`probability`, `is_verified`, `reasoning` (src/index.js lines 55-59 and
74-78). -/
structure VerificationResult where
  probability : ℚ
  is_verified : Bool
  reasoning : String
deriving DecidableEq

/-- The literal object returned when the input guard fails
(src/index.js lines 55-59). -/
def missingInputResult : VerificationResult :=
  { probability := 0
    is_verified := false
    reasoning := "Error: Missing file data or exam type in the input." }

/-- The `mockReasoning` template string of src/index.js line 72. -/
def mockReasoning (isVerified : Bool) (examType : String) : String :=
  "This is a mock response. The analysis was simulated. The file appears " ++
    (if isVerified then "to be" else "not to be") ++
    " a valid '" ++ examType ++ "' document."

/-- `MedicalExamVerifierTool.execute` (src/index.js lines 50-81), with the
`Math.random()` draw made an explicit argument.  `console.log` calls are
server-side logging, not caller-visible behaviour, and are not modelled. -/
def execute (inputs : ExecuteInputs) (randomProbability : ℚ) : VerificationResult :=
  if missingInput inputs then
    missingInputResult
  else
    let examType := inputs.examType.getD ""
    let isVerified : Bool := decide ((0.5 : ℚ) < randomProbability)
    { probability := randomProbability
      is_verified := isVerified
      reasoning := mockReasoning isVerified examType }

/-- Caller-visible events of one tool invocation: progress notifications, the
terminal success result, or a terminal error. -/
inductive ToolEvent where
  | progress (message : String)
  | ended (result : VerificationResult)
  | errored (message : String)
deriving DecidableEq

/-- Whether an event is a progress notification. -/
def ToolEvent.isProgress : ToolEvent → Bool
  | .progress _ => true
  | _ => false

/-- Whether an event is terminal (success result or error). -/
def ToolEvent.isTerminal : ToolEvent → Bool
  | .ended _ => true
  | .errored _ => true
  | _ => false

/-- Whether an event is a terminal error. -/
def ToolEvent.isErrored : ToolEvent → Bool
  | .errored _ => true
  | _ => false

/-- The observable interaction of one invocation: the ordered caller-visible
events and the number of outbound backend calls made. -/
structure ExecuteTrace where
  events : List ToolEvent
  backendCalls : ℕ
deriving DecidableEq

/-- The observable behaviour of one invocation of `execute`
(src/index.js lines 50-81): the active code emits no progress or error event
through the `context` channel (which it never touches), performs no backend
call (the fetch exists only in a block comment), and terminates by returning
exactly one result object. -/
def executeTrace (inputs : ExecuteInputs) (randomProbability : ℚ) : ExecuteTrace :=
  { events := [ToolEvent.ended (execute inputs randomProbability)]
    backendCalls := 0 }

/-- A sample well-formed input: a small base64 payload claimed to be an
x-ray. -/
def sampleInput : ExecuteInputs :=
  { file := some { data := some "aGVsbG8=", mediaType := some "image/png" }
    examType := some "x-ray" }

/-- A sample input with the `file` field absent. -/
def missingFileInput : ExecuteInputs :=
  { file := none, examType := some "x-ray" }

/-- A sample input whose exam-type string is empty (falsy in JS). -/
def emptyExamTypeInput : ExecuteInputs :=
  { file := some { data := some "aGVsbG8=", mediaType := some "image/png" }
    examType := some "" }

/-!
Embedding of the response-handling step of the commented-out "real
implementation" (src/index.js lines 126-139): the backend message content is
stripped of markdown code fences, trimmed, and fed to `JSON.parse`; a parse
failure is caught by the surrounding `try`/`catch`, which returns a fallback
result object.  `JSON.parse` is a JS builtin, modelled here by a JSON-grammar
parser over the character list; the engine-specific `SyntaxError` message is
an external input `errMessage`.
-/

/-- A JSON value, as produced by `JSON.parse`. -/
inductive Json where
  | null
  | bool (b : Bool)
  | num (q : ℚ)
  | str (s : String)
  | arr (elems : List Json)
  | obj (fields : List (String × Json))

/-- JSON insignificant whitespace: space, tab, line feed, carriage return. -/
def isJsonWs (c : Char) : Bool :=
  c = ' ' || c = '\t' || c = '\n' || c = '\r'

/-- Drop leading JSON whitespace. -/
def skipWs : List Char → List Char
  | [] => []
  | c :: rest => if isJsonWs c then skipWs rest else c :: rest

/-- Split off a maximal run of leading decimal digits. -/
def takeDigits : List Char → List Char × List Char
  | [] => ([], [])
  | c :: rest =>
    if !c.isDigit then ([], c :: rest)
    else
      match takeDigits rest with
      | (ds, tail) => (c :: ds, tail)

/-- Numeric value of a run of decimal digits, accumulator style. -/
def digitsToNatAux (acc : ℕ) : List Char → ℕ
  | [] => acc
  | d :: rest => digitsToNatAux (10 * acc + (d.toNat - 48)) rest

/-- Numeric value of a run of decimal digits. -/
def digitsToNat (ds : List Char) : ℕ :=
  digitsToNatAux 0 ds

/-- Value of a hexadecimal digit, if the character is one (either case). -/
def hexVal (c : Char) : Option ℕ :=
  let l := c.toLower
  if l.isDigit then some (l.toNat - 48)
  else if 'a' ≤ l && l ≤ 'f' then some (l.toNat - 87)
  else none

/-- Parse the optional fraction part of a JSON number. -/
def parseFrac : List Char → Option (ℚ × List Char)
  | '.' :: r =>
    match takeDigits r with
    | ([], _) => none
    | (ds, r2) => some ((digitsToNat ds : ℚ) / (10 : ℚ) ^ ds.length, r2)
  | cs => some (0, cs)

/-- Parse the optional exponent part of a JSON number. -/
def parseExp : List Char → Option (ℤ × List Char)
  | c :: r =>
    if c = 'e' || c = 'E' then
      let (neg, r2) : Bool × List Char :=
        match r with
        | '+' :: r3 => (false, r3)
        | '-' :: r3 => (true, r3)
        | _ => (false, r)
      match takeDigits r2 with
      | ([], _) => none
      | (ds, r4) =>
        some ((if neg then -(digitsToNat ds : ℤ) else (digitsToNat ds : ℤ)), r4)
    else some (0, c :: r)
  | [] => some (0, [])

/-- Parse an unsigned JSON number: integer part (no leading zeros), optional
fraction, optional exponent. -/
def parseUnsigned (cs : List Char) : Option (ℚ × List Char) :=
  match takeDigits cs with
  | ([], _) => none
  | (ints, cs2) =>
    if 1 < ints.length && ints.headI = '0' then none
    else
      match parseFrac cs2 with
      | none => none
      | some (fr, cs3) =>
        match parseExp cs3 with
        | none => none
        | some (ex, cs4) =>
          some (((digitsToNat ints : ℚ) + fr) * (10 : ℚ) ^ ex, cs4)

/-- Parse a JSON number (`-?(0|[1-9][0-9]*)(.[0-9]+)?([eE][+-]?[0-9]+)?`),
handling the optional leading minus by negating the unsigned value. -/
def parseNumber : List Char → Option (ℚ × List Char)
  | '-' :: r =>
    match parseUnsigned r with
    | some (q, tail) => some (-q, tail)
    | none => none
  | cs => parseUnsigned cs

/-- Parse the body of a JSON string after the opening quote, handling the
escape sequences of the JSON grammar. -/
def parseStringBody : ℕ → List Char → List Char → Option (String × List Char)
  | 0, _, _ => none
  | _ + 1, [], _ => none
  | f + 1, c :: rest, acc =>
    if c = '"' then some (String.mk acc.reverse, rest)
    else if c = '\\' then
      match rest with
      | [] => none
      | e :: rest2 =>
        if e = '"' then parseStringBody f rest2 ('"' :: acc)
        else if e = '\\' then parseStringBody f rest2 ('\\' :: acc)
        else if e = '/' then parseStringBody f rest2 ('/' :: acc)
        else if e = 'b' then parseStringBody f rest2 (Char.ofNat 8 :: acc)
        else if e = 'f' then parseStringBody f rest2 (Char.ofNat 12 :: acc)
        else if e = 'n' then parseStringBody f rest2 ('\n' :: acc)
        else if e = 'r' then parseStringBody f rest2 ('\r' :: acc)
        else if e = 't' then parseStringBody f rest2 ('\t' :: acc)
        else if e = 'u' then
          match rest2 with
          | a :: b :: c2 :: d :: rest3 =>
            match hexVal a, hexVal b, hexVal c2, hexVal d with
            | some ha, some hb, some hc, some hd =>
              parseStringBody f rest3
                (Char.ofNat (((ha * 16 + hb) * 16 + hc) * 16 + hd) :: acc)
            | _, _, _, _ => none
          | _ => none
        else none
    else if c.toNat < 32 then none
    else parseStringBody f rest (c :: acc)

/-- Mode of the recursive JSON parser: a single value, the remaining elements
of an array (after the first `[` and a first element is due), or the
remaining members of an object. -/
inductive PMode where
  | value
  | elems
  | members

/-- Fuel-indexed recursive descent over the JSON grammar.  `elems` mode
returns its result wrapped in `Json.arr`, `members` mode in `Json.obj`. -/
def parseJ : ℕ → PMode → List Char → Option (Json × List Char)
  | 0, _, _ => none
  | f + 1, PMode.value, cs =>
    match skipWs cs with
    | [] => none
    | c :: rest =>
      if c = 'n' then
        match rest with
        | 'u' :: 'l' :: 'l' :: r => some (Json.null, r)
        | _ => none
      else if c = 't' then
        match rest with
        | 'r' :: 'u' :: 'e' :: r => some (Json.bool true, r)
        | _ => none
      else if c = 'f' then
        match rest with
        | 'a' :: 'l' :: 's' :: 'e' :: r => some (Json.bool false, r)
        | _ => none
      else if c = '"' then
        match parseStringBody (rest.length + 1) rest [] with
        | some (s, r) => some (Json.str s, r)
        | none => none
      else if c = '[' then
        match skipWs rest with
        | ']' :: r => some (Json.arr [], r)
        | cs2 =>
          match parseJ f PMode.elems cs2 with
          | some (v, r) => some (v, r)
          | none => none
      else if c = '{' then
        match skipWs rest with
        | '}' :: r => some (Json.obj [], r)
        | cs2 =>
          match parseJ f PMode.members cs2 with
          | some (v, r) => some (v, r)
          | none => none
      else if c = '-' || c.isDigit then
        match parseNumber (c :: rest) with
        | some (q, r) => some (Json.num q, r)
        | none => none
      else none
  | f + 1, PMode.elems, cs =>
    match parseJ f PMode.value cs with
    | none => none
    | some (v, rest) =>
      match skipWs rest with
      | ',' :: rest2 =>
        match parseJ f PMode.elems rest2 with
        | some (Json.arr vs, rest3) => some (Json.arr (v :: vs), rest3)
        | _ => none
      | ']' :: rest2 => some (Json.arr [v], rest2)
      | _ => none
  | f + 1, PMode.members, cs =>
    match skipWs cs with
    | '"' :: rest =>
      match parseStringBody (rest.length + 1) rest [] with
      | none => none
      | some (k, rest2) =>
        match skipWs rest2 with
        | ':' :: rest3 =>
          match parseJ f PMode.value rest3 with
          | none => none
          | some (v, rest4) =>
            match skipWs rest4 with
            | ',' :: rest5 =>
              match parseJ f PMode.members rest5 with
              | some (Json.obj ms, rest6) => some (Json.obj ((k, v) :: ms), rest6)
              | _ => none
            | '}' :: rest5 => some (Json.obj [(k, v)], rest5)
            | _ => none
        | _ => none
    | _ => none

/-- `JSON.parse`: parse one value and require only whitespace after it. -/
def parseJson (s : String) : Option Json :=
  let cs := s.toList
  match parseJ (cs.length + 1) PMode.value cs with
  | some (v, rest) => if skipWs rest = [] then some v else none
  | none => none

/-- The fence-stripping `content.replace` regex of src/index.js line 126:
each position is matched against the alternatives in order and matches are
removed. -/
def stripFencesAux : ℕ → List Char → List Char
  | 0, cs => cs
  | _ + 1, [] => []
  | f + 1, c :: rest =>
    if List.isPrefixOf "```json\n".toList (c :: rest) then
      stripFencesAux f (List.drop 8 (c :: rest))
    else if List.isPrefixOf "\n```".toList (c :: rest) then
      stripFencesAux f (List.drop 4 (c :: rest))
    else c :: stripFencesAux f rest

/-- Remove every occurrence of the two code-fence patterns. -/
def stripFences (cs : List Char) : List Char :=
  stripFencesAux cs.length cs

/-- JS `String.prototype.trim`-style whitespace. -/
def isTrimWs (c : Char) : Bool :=
  isJsonWs c || c = '\x0b' || c = '\x0c'

/-- Drop leading and trailing whitespace from a character list. -/
def trimChars (cs : List Char) : List Char :=
  ((cs.dropWhile isTrimWs).reverse.dropWhile isTrimWs).reverse

/-- `const jsonString = content.replace(/‛‛‛json\n|\n‛‛‛/g, '').trim()`
(src/index.js line 126, with backticks shown as ‛). -/
def cleanJsonString (content : String) : String :=
  String.mk (trimChars (stripFences content.toList))

/-- The fallback object built in the `catch` block of the commented-out real
implementation (src/index.js lines 134-138). -/
def realCatchResult (errMessage : String) : VerificationResult :=
  { probability := 0
    is_verified := false
    reasoning := "An error occurred during analysis: " ++ errMessage }

/-- Result handling of the commented-out real implementation
(src/index.js lines 126-139): clean the content, `JSON.parse` it and return
the parsed object as-is on success; on a parse failure the `catch` block
returns the fallback result carrying the engine's error message
`errMessage`. -/
def realResponseOutcome (content : String) (errMessage : String) :
    Json ⊕ VerificationResult :=
  match parseJson (cleanJsonString content) with
  | some j => Sum.inl j
  | none => Sum.inr (realCatchResult errMessage)

/-- The non-JSON backend reply of the spec's end-to-end scenario 2. -/
def nonJsonResponse : String := "I cannot determine this."

/-- A nonempty string appended on the left keeps any concatenation
nonempty. -/
theorem string_append_ne_empty (a b : String) (ha : a ≠ "") : a ++ b ≠ "" := by
  intro h
  apply ha
  obtain ⟨la⟩ := a
  obtain ⟨lb⟩ := b
  have hd : (String.mk la ++ String.mk lb) = String.mk (la ++ lb) := rfl
  rw [hd] at h
  have : la ++ lb = ([] : List Char) := by
    have := congrArg String.data h
    simpa using this
  have hla : la = [] := (List.append_eq_nil.mp this).1
  simp [hla]

/-- The mock reasoning string is never empty, whichever branch of the
template is taken. -/
theorem mockReasoning_ne_empty (b : Bool) (e : String) : mockReasoning b e ≠ "" := by
  unfold mockReasoning
  apply string_append_ne_empty
  apply string_append_ne_empty
  apply string_append_ne_empty
  apply string_append_ne_empty
  decide

/-- Unfolding of `execute` on an input that fails the presence guard. -/
theorem execute_of_missing (inputs : ExecuteInputs) (r : ℚ)
    (h : missingInput inputs = true) :
    execute inputs r = missingInputResult := by
  simp [execute, h]

/-- Unfolding of `execute` on an input that passes the presence guard. -/
theorem execute_of_valid (inputs : ExecuteInputs) (r : ℚ)
    (h : missingInput inputs = false) :
    execute inputs r =
      { probability := r
        is_verified := decide ((0.5 : ℚ) < r)
        reasoning :=
          mockReasoning (decide ((0.5 : ℚ) < r)) (inputs.examType.getD "") } := by
  simp [execute, h]

/-- The probability field of `execute`, on either branch of the guard. -/
theorem execute_probability_eq (inputs : ExecuteInputs) (r : ℚ) :
    (execute inputs r).probability = if missingInput inputs then 0 else r := by
  by_cases h : missingInput inputs = true
  · rw [execute_of_missing inputs r h, h]; rfl
  · rw [execute_of_valid inputs r (by simpa using h)]
    simp [Bool.eq_false_iff.mpr h]


/-- C2: for every input, every result returned by `execute` has a
probability in the closed interval [0,1], given the JS guarantee that
`Math.random()` lies in [0,1). -/
theorem execute_probability_in_range (inputs : ExecuteInputs) (r : ℚ)
    (h0 : 0 ≤ r) (h1 : r < 1) :
    0 ≤ (execute inputs r).probability ∧ (execute inputs r).probability ≤ 1 := by
  rw [execute_probability_eq]
  split
  · exact ⟨le_refl 0, zero_le_one⟩
  · exact ⟨h0, le_of_lt h1⟩

/-- Witness for C2: the bounds hold at a concrete input and random draw. -/
theorem execute_probability_in_range_witness :
    0 ≤ (execute sampleInput 0).probability ∧
      (execute sampleInput 0).probability ≤ 1 :=
  execute_probability_in_range sampleInput 0 (le_refl 0) zero_lt_one

/-- C4: on the success path and every failure path alike, `execute` returns
an object of output-schema Variant B: exactly the fields `probability` (a
number in [0,1]), `is_verified` (a boolean) and `reasoning` (a string). -/
theorem execute_returns_variantB (inputs : ExecuteInputs) (r : ℚ)
    (h0 : 0 ≤ r) (h1 : r < 1) :
    ∃ (p : ℚ) (b : Bool) (s : String),
      execute inputs r = ⟨p, b, s⟩ ∧ 0 ≤ p ∧ p ≤ 1 := by
  refine ⟨(execute inputs r).probability, (execute inputs r).is_verified,
    (execute inputs r).reasoning, rfl, ?_, ?_⟩
  · rw [execute_probability_eq]
    split
    · exact le_refl 0
    · exact h0
  · rw [execute_probability_eq]
    split
    · exact zero_le_one
    · exact le_of_lt h1

/-- Witness for C4 at a concrete input and random draw. -/
theorem execute_returns_variantB_witness :
    ∃ (p : ℚ) (b : Bool) (s : String),
      execute sampleInput 0 = ⟨p, b, s⟩ ∧ 0 ≤ p ∧ p ≤ 1 :=
  execute_returns_variantB sampleInput 0 (le_refl 0) zero_lt_one

/-- C5: on every path through `execute` (missing-input path and mock path)
the `reasoning` field of the returned object is a non-empty string. -/
theorem execute_reasoning_nonempty (inputs : ExecuteInputs) (r : ℚ) :
    (execute inputs r).reasoning ≠ "" := by
  by_cases h : missingInput inputs = true
  · rw [execute_of_missing inputs r h]
    decide
  · rw [execute_of_valid inputs r (by simpa using h)]
    exact mockReasoning_ne_empty _ _

/-- C6: every invocation produces exactly one terminal event — here always
the single success result, never an error, never more than one terminal
event — after zero or more progress events. -/
theorem executeTrace_exactly_one_terminal (inputs : ExecuteInputs) (r : ℚ) :
    ((executeTrace inputs r).events.filter ToolEvent.isTerminal).length = 1 ∧
    (executeTrace inputs r).events.filter ToolEvent.isTerminal =
      [ToolEvent.ended (execute inputs r)] ∧
    (executeTrace inputs r).events.filter ToolEvent.isErrored = [] := by
  refine ⟨?_, ?_, ?_⟩ <;>
    simp [executeTrace, ToolEvent.isTerminal, ToolEvent.isErrored,
      List.filter]

/-- C7 counterexample: a concrete well-formed invocation emits no progress
event at all, in particular fewer than the two the claim requires. -/
theorem executeTrace_progress_counterexample :
    (executeTrace sampleInput 0).events.filter ToolEvent.isProgress = [] ∧
    ¬ 2 ≤ ((executeTrace sampleInput 0).events.filter ToolEvent.isProgress).length := by
  refine ⟨?_, ?_⟩ <;>
    simp [executeTrace, ToolEvent.isProgress, List.filter]

/-- C7 amended: the tool emits no progress notification whatsoever; the only
caller-visible event of an invocation is the single terminal result. -/
theorem executeTrace_no_progress (inputs : ExecuteInputs) (r : ℚ) :
    (executeTrace inputs r).events.filter ToolEvent.isProgress = [] ∧
    (executeTrace inputs r).events = [ToolEvent.ended (execute inputs r)] := by
  refine ⟨?_, rfl⟩
  simp [executeTrace, ToolEvent.isProgress, List.filter]

/-- C1 counterexample: on a concrete input with the file absent, the
invocation produces no error event — its single terminal event is a
returned result object — although, as the claim says, no backend call is
made. -/
theorem missing_input_not_error_event :
    (executeTrace missingFileInput 0).events.filter ToolEvent.isErrored = [] ∧
    (executeTrace missingFileInput 0).events =
      [ToolEvent.ended missingInputResult] ∧
    (executeTrace missingFileInput 0).backendCalls = 0 := by
  refine ⟨?_, ?_, rfl⟩
  · simp [executeTrace, ToolEvent.isErrored, List.filter]
  · rw [executeTrace, execute_of_missing missingFileInput 0 (by decide)]

/-- C1 amended: on missing input the invocation immediately returns the
fixed error-shaped result object as its only (success-typed) terminal
event, with zero backend calls; no typed ValidationError is raised. -/
theorem executeTrace_missing_input (inputs : ExecuteInputs) (r : ℚ)
    (h : missingInput inputs = true) :
    executeTrace inputs r =
      { events := [ToolEvent.ended missingInputResult], backendCalls := 0 } := by
  rw [executeTrace, execute_of_missing inputs r h]

/-- Witness for the amended C1 at a concrete input with the file absent. -/
theorem executeTrace_missing_input_witness :
    missingInput missingFileInput = true ∧
    executeTrace missingFileInput 0 =
      { events := [ToolEvent.ended missingInputResult], backendCalls := 0 } :=
  ⟨by decide, executeTrace_missing_input missingFileInput 0 (by decide)⟩

/-- C9: whenever the file, its data, or the exam type is absent or empty
(JS falsy), `execute` returns — rather than throws — the exact
error-shaped success object of src/index.js lines 55-59. -/
theorem execute_missing_input_result (inputs : ExecuteInputs) (r : ℚ)
    (h : missingInput inputs = true) :
    execute inputs r =
      { probability := 0
        is_verified := false
        reasoning := "Error: Missing file data or exam type in the input." } :=
  execute_of_missing inputs r h

/-- Witness for C9 at a concrete input whose exam-type string is empty,
showing the empty string is treated as missing input. -/
theorem execute_missing_input_result_witness :
    missingInput emptyExamTypeInput = true ∧
    execute emptyExamTypeInput 0 =
      { probability := 0
        is_verified := false
        reasoning := "Error: Missing file data or exam type in the input." } :=
  ⟨by decide, execute_missing_input_result emptyExamTypeInput 0 (by decide)⟩

/-- C8: on the mock analysis path (input passes the presence guard), the
returned `is_verified` flag holds exactly when the returned probability
exceeds 0.5. -/
theorem execute_isVerified_iff (inputs : ExecuteInputs) (r : ℚ)
    (h : missingInput inputs = false) :
    (execute inputs r).is_verified = true ↔
      (0.5 : ℚ) < (execute inputs r).probability := by
  rw [execute_of_valid inputs r h]
  simp

/-- Witness for C8 at a concrete well-formed input. -/
theorem execute_isVerified_iff_witness :
    (execute sampleInput 0).is_verified = true ↔
      (0.5 : ℚ) < (execute sampleInput 0).probability :=
  execute_isVerified_iff sampleInput 0 (by decide)

/-- C10: `execute` is not a deterministic function of its tool input: two
invocations on the same valid input with different `Math.random()` draws
(both in the guaranteed range [0,1)) return different results. -/
theorem execute_not_deterministic :
    ∃ (inputs : ExecuteInputs) (r₁ r₂ : ℚ),
      0 ≤ r₁ ∧ r₁ < 1 ∧ 0 ≤ r₂ ∧ r₂ < 1 ∧
      execute inputs r₁ ≠ execute inputs r₂ := by
  refine ⟨sampleInput, 0, 3/4, le_refl 0, zero_lt_one, by norm_num, by norm_num, ?_⟩
  intro h
  have hp := congrArg VerificationResult.probability h
  rw [execute_probability_eq, execute_probability_eq] at hp
  have hms : missingInput sampleInput = false := by decide
  rw [hms] at hp
  norm_num at hp

/-- C3 counterexample: the backend reply "I cannot determine this." is not
valid JSON, yet the (commented-out) real implementation returns a
result object — the catch-block fallback — rather than producing a typed
MalformedResponseError. -/
theorem real_path_non_json_counterexample :
    (parseJson (cleanJsonString nonJsonResponse)).isNone = true ∧
    realResponseOutcome nonJsonResponse "Unexpected token I in JSON at position 0" =
      Sum.inr (realCatchResult "Unexpected token I in JSON at position 0") :=
  ⟨rfl, rfl⟩

/-- C3 amended: on any backend reply whose cleaned content fails to parse as
JSON, the parse exception is caught (never propagated) and the catch block
returns the fallback result object with probability 0, `is_verified` false
and a non-empty reasoning carrying the engine error message; no typed
MalformedResponseError exists in the code. -/
theorem real_path_catch_on_parse_failure (content errMessage : String)
    (h : (parseJson (cleanJsonString content)).isNone = true) :
    realResponseOutcome content errMessage = Sum.inr (realCatchResult errMessage) ∧
    (realCatchResult errMessage).probability = 0 ∧
    (realCatchResult errMessage).is_verified = false ∧
    (realCatchResult errMessage).reasoning ≠ "" := by
  have h2 : parseJson (cleanJsonString content) = none :=
    Option.isNone_iff_eq_none.mp h
  refine ⟨?_, rfl, rfl, ?_⟩
  · rw [realResponseOutcome, h2]
  · exact string_append_ne_empty _ _ (by decide)

/-- Witness for the amended C3 at the concrete non-JSON backend reply. -/
theorem real_path_catch_on_parse_failure_witness :
    realResponseOutcome nonJsonResponse "SyntaxError" =
      Sum.inr (realCatchResult "SyntaxError") ∧
    (realCatchResult "SyntaxError").probability = 0 ∧
    (realCatchResult "SyntaxError").is_verified = false ∧
    (realCatchResult "SyntaxError").reasoning ≠ "" :=
  real_path_catch_on_parse_failure nonJsonResponse "SyntaxError" rfl

end MedicalVerifier
